import Mathlib

/-!
Verification development for the ExpenseTracker repository (Personal
Finance Advisor).  The React frontend (frontend/src/App.jsx) is embedded
directly from its source.  The backend components (FieldExtractor,
TextChunker, TransactionJournal, RetrievalAnalysisWorkflow, corpus reset)
are not present in the repository snapshot, so they are modelled from the
specification; every such definition carries a doc comment beginning
"Modelled from the spec:".
-/

namespace ExpenseTracker

/-- A calendar date, as produced by the date extractor. -/
structure Date where
  year : Nat
  month : Nat
  day : Nat
deriving DecidableEq, Repr

/-- Transaction record per the data model: amounts are in integer cents,
absent amounts are represented by none together with needs_review. -/
structure Transaction where
  id : Nat
  date : Date
  merchant : String
  category : String
  amount : Option Nat
  currency : String
  raw_text : List Char
  needs_review : Bool
deriving DecidableEq, Repr

/-! ## Frontend model (from frontend/src/App.jsx) -/

/-- The React component state of App.jsx: one field per useState hook
(question, answer, retrieved, loading, error, file, uploadStatus,
uploading, resetting, transactions). -/
structure AppState where
  question : String
  answer : String
  retrieved : String
  error : String
  uploadStatus : String
  file : Option String
  transactions : List Transaction
  loading : Bool
  uploading : Bool
  resetting : Bool
deriving DecidableEq, Repr

/-- Body of a successful /ask response as read by handleAsk:
data.answer and data.retrieved_context (which may be absent). -/
structure AskData where
  answer : String
  retrieved_context : Option String
deriving DecidableEq, Repr

/-- Outcome of the fetch performed by handleAsk: a thrown network error,
a response with resp.ok false (status and body), or an ok response with
a parsed JSON body. -/
inductive FetchResult where
  | thrown (msg : String)
  | notOk (status : Nat) (body : String)
  | ok (data : AskData)
deriving DecidableEq, Repr

/-- The trim of the JavaScript string prototype: whitespace removed from
both ends. -/
def jsTrim (s : String) : String :=
  String.mk (((s.toList.dropWhile Char.isWhitespace).reverse.dropWhile
    Char.isWhitespace).reverse)

/-- handleAsk from App.jsx, lines 42-71.  It first sets error, answer and
retrieved to empty strings; if the trimmed question is empty it sets the
error and returns without issuing a request (second component false);
otherwise it issues the request and handles the three fetch outcomes.
On a non-ok response it throws and catches Backend error: status,
discarding the body; on an ok response it stores data.answer and
data.retrieved_context with empty-string fallback. -/
def handleAsk (s : AppState) (fr : FetchResult) : AppState × Bool :=
  let s1 : AppState := { s with error := "", answer := "", retrieved := "" }
  if jsTrim s.question = "" then
    ({ s1 with error := "Please enter a question first." }, false)
  else
    match fr with
    | .thrown msg =>
        ({ s1 with error := if msg = "" then "Something went wrong" else msg,
                   loading := false }, true)
    | .notOk status _body =>
        ({ s1 with error := "Backend error: " ++ toString status,
                   loading := false }, true)
    | .ok d =>
        ({ s1 with answer := d.answer,
                   retrieved := d.retrieved_context.getD "",
                   loading := false }, true)

/-- Outcome of the fetch performed by handleReset. -/
inductive ResetFetch where
  | netError (msg : String)
  | httpError
  | success
deriving DecidableEq, Repr

/-- Outcome of the fetch performed by loadTransactions. -/
inductive LoadResult where
  | success (txs : List Transaction)
  | failure (msg : String)
deriving DecidableEq, Repr

/-- loadTransactions from App.jsx, lines 110-122: on success it replaces
the transactions list; on failure it sets the error message (with the
generic fallback when the thrown message is empty). -/
def applyLoad (s : AppState) (lr : LoadResult) : AppState :=
  match lr with
  | .success txs => { s with transactions := txs }
  | .failure msg =>
      { s with error := if msg = "" then "Failed to fetch transactions" else msg }

/-- Success message set by handleReset after clearing everything. -/
def resetDoneMsg : String := "All data cleared. Start fresh by uploading new receipts."

/-- handleReset from App.jsx, lines 124-148.  It clears the error, asks
window.confirm, and returns without any request when the user declines.
Otherwise it posts to /reset_data; on success it clears answer,
retrieved, file, uploadStatus and question, reloads transactions, and
sets uploadStatus to the fixed success message.  The boolean result
records whether the reset request was issued. -/
def handleReset (s : AppState) (confirmed : Bool) (fr : ResetFetch)
    (lr : LoadResult) : AppState × Bool :=
  let s0 : AppState := { s with error := "" }
  if confirmed = false then (s0, false)
  else
    match fr with
    | .netError msg =>
        ({ s0 with error := if msg = "" then "Reset failed" else msg,
                   resetting := false }, true)
    | .httpError =>
        ({ s0 with error := "Failed to reset data", resetting := false }, true)
    | .success =>
        let s1 : AppState := { s0 with answer := "", retrieved := "", file := none,
                                       uploadStatus := "", question := "" }
        let s2 : AppState := applyLoad s1 lr
        ({ s2 with uploadStatus := resetDoneMsg, resetting := false }, true)

/-- App.jsx line 220: the error banner renders exactly when error is a
non-empty string (JavaScript truthiness). -/
def showErrorBanner (s : AppState) : Bool := !(s.error == "")

/-- App.jsx line 224: the Answer card renders exactly when answer is a
non-empty string (JavaScript truthiness). -/
def showAnswerCard (s : AppState) : Bool := !(s.answer == "")

/-- App.jsx line 230: the Retrieved context card renders exactly when
retrieved is a non-empty string (JavaScript truthiness). -/
def showRetrievedCard (s : AppState) : Bool := !(s.retrieved == "")

/-- A concrete state with a non-empty question, used as a sample input. -/
def askReadyState : AppState :=
  { question := "How much did I spend?", answer := "old answer",
    retrieved := "old context", error := "", uploadStatus := "",
    file := none, transactions := [], loading := false,
    uploading := false, resetting := false }

/-! ## TextChunker (backend, not in the snapshot; modelled from the spec) -/

/-- A chunk of OCR text per the data model: position, text, and the
number of characters shared with the previous chunk. -/
structure Chunk where
  sequence_index : Nat
  text : List Char
  overlap_with_previous : Nat
deriving DecidableEq, Repr

/-- Modelled from the spec: the chunking walk of TextChunker (4.2),
missing from the snapshot.  Walks the text in strides of
chunk_size - overlap, emitting windows of chunk_size characters and a
final shorter window when a remainder exists.  The stride-zero branch is
unreachable once the validation chunk_size > overlap holds. -/
def chunkWorker (csize stride : Nat) (l : List Char) : List (List Char) :=
  if h : l = [] then []
  else if hs : stride = 0 then [l]
  else l.take csize :: chunkWorker csize stride (l.drop stride)
termination_by l.length
decreasing_by
  simp only [List.length_drop]
  exact Nat.sub_lt (List.length_pos.mpr h) (Nat.pos_of_ne_zero hs)

/-- Modelled from the spec: chunk metadata assignment.  Chunks receive
consecutive sequence_index values and overlap_with_previous equal to the
configured overlap on every chunk but the first. -/
def buildChunks (overlap : Nat) : Nat → List (List Char) → List Chunk
  | _, [] => []
  | i, p :: ps =>
      ⟨i, p, if i = 0 then 0 else overlap⟩ :: buildChunks overlap (i + 1) ps

namespace TextChunker

/-- Modelled from the spec: TextChunker.chunk (4.2), missing from the
snapshot.  Validation error unless chunk_size > overlap >= 0; otherwise
the ordered chunk sequence produced by the stride walk. -/
def chunk (txt : List Char) (csize overlap : Nat) : Except String (List Chunk) :=
  if overlap < csize then
    .ok (buildChunks overlap 0 (chunkWorker csize (csize - overlap) txt))
  else
    .error "chunk_size must be greater than overlap"

end TextChunker

/-- The reconstruction described by the spec invariant: concatenate the
chunks in order after stripping overlap_with_previous characters from
the front of each (the first chunk has overlap_with_previous zero). -/
def reconstruct (cs : List Chunk) : List Char :=
  (cs.map (fun k => k.text.drop k.overlap_with_previous)).flatten

lemma chunkWorker_nil (csize stride : Nat) : chunkWorker csize stride [] = [] := by
  rw [chunkWorker]
  simp

lemma chunkWorker_cons (csize stride : Nat) (l : List Char) (h : l ≠ [])
    (hs : stride ≠ 0) :
    chunkWorker csize stride l = l.take csize :: chunkWorker csize stride (l.drop stride) := by
  rw [chunkWorker]
  simp [h, hs]

/-- Dropping the overlap from every window of the stride walk and
concatenating recovers the text from position overlap on, provided the
window size is stride + overlap. -/
lemma join_map_drop_chunkWorker (stride overlap : Nat) (hs : 0 < stride) :
    ∀ n (l : List Char), l.length ≤ n →
      ((chunkWorker (stride + overlap) stride l).map (fun p => p.drop overlap)).flatten
        = l.drop overlap := by
  intro n
  induction n with
  | zero =>
      intro l hl
      have : l = [] := List.length_eq_zero.mp (Nat.le_zero.mp hl)
      subst this
      simp [chunkWorker_nil]
  | succ n ih =>
      intro l hl
      by_cases h : l = []
      · subst h
        simp [chunkWorker_nil]
      · rw [chunkWorker_cons _ _ _ h (Nat.pos_iff_ne_zero.mp hs)]
        have hrec := ih (l.drop stride) ?_
        · rw [List.map_cons, List.flatten_cons, hrec]
          rw [List.drop_drop, List.drop_take]
          have h1 : stride + overlap - overlap = stride := by omega
          have h2 : List.drop (stride + overlap) l
              = List.drop stride (List.drop overlap l) := by
            rw [List.drop_drop, Nat.add_comm]
          rw [h1, h2]
          exact List.take_append_drop stride (l.drop overlap)
        · rw [List.length_drop]
          have hp : 0 < l.length := List.length_pos.mpr h
          omega

/-- The metadata pass keeps the window texts; from index one on, every
chunk strips to its window minus the overlap. -/
lemma buildChunks_map_drop (overlap : Nat) (ps : List (List Char)) :
    ∀ i, i ≠ 0 →
      (buildChunks overlap i ps).map (fun k => k.text.drop k.overlap_with_previous)
        = ps.map (fun p => p.drop overlap) := by
  induction ps with
  | nil => intro i _; simp [buildChunks]
  | cons p ps ih =>
      intro i hi
      simp only [buildChunks, List.map_cons, hi, if_false, if_neg hi]
      rw [ih (i + 1) (Nat.succ_ne_zero i)]

/-- Sequence indices assigned by the metadata pass are consecutive. -/
lemma buildChunks_map_index (overlap : Nat) (ps : List (List Char)) :
    ∀ i, (buildChunks overlap i ps).map Chunk.sequence_index
      = List.range' i ps.length := by
  induction ps with
  | nil => intro i; simp [buildChunks]
  | cons p ps ih =>
      intro i
      simp only [buildChunks, List.map_cons, List.length_cons, List.range'_succ]
      rw [ih (i + 1)]

/-! ## FieldExtractor (backend, not in the snapshot; modelled from the spec) -/

/-- Numeric value of a two-digit pair of ASCII digits. -/
def twoDigits (a b : Char) : Nat := (a.toNat - 48) * 10 + (b.toNat - 48)

/-- Modelled from the spec: the ISO pattern YYYY-MM-DD of the date
extractor, matched at the head of the given character list. -/
def isoParse : List Char → Option Date
  | y1 :: y2 :: y3 :: y4 :: '-' :: m1 :: m2 :: '-' :: d1 :: d2 :: _ =>
      if y1.isDigit && y2.isDigit && y3.isDigit && y4.isDigit
          && m1.isDigit && m2.isDigit && d1.isDigit && d2.isDigit then
        some ⟨twoDigits y1 y2 * 100 + twoDigits y3 y4, twoDigits m1 m2, twoDigits d1 d2⟩
      else none
  | _ => none

/-- Modelled from the spec: the US slash pattern MM/DD/YYYY, matched at
the head of the given character list. -/
def usSlashParse : List Char → Option Date
  | m1 :: m2 :: '/' :: d1 :: d2 :: '/' :: y1 :: y2 :: y3 :: y4 :: _ =>
      if m1.isDigit && m2.isDigit && d1.isDigit && d2.isDigit
          && y1.isDigit && y2.isDigit && y3.isDigit && y4.isDigit then
        some ⟨twoDigits y1 y2 * 100 + twoDigits y3 y4, twoDigits m1 m2, twoDigits d1 d2⟩
      else none
  | _ => none

/-- Modelled from the spec: the US dash pattern MM-DD-YYYY, matched at
the head of the given character list. -/
def usDashParse : List Char → Option Date
  | m1 :: m2 :: '-' :: d1 :: d2 :: '-' :: y1 :: y2 :: y3 :: y4 :: _ =>
      if m1.isDigit && m2.isDigit && d1.isDigit && d2.isDigit
          && y1.isDigit && y2.isDigit && y3.isDigit && y4.isDigit then
        some ⟨twoDigits y1 y2 * 100 + twoDigits y3 y4, twoDigits m1 m2, twoDigits d1 d2⟩
      else none
  | _ => none

/-- Modelled from the spec: the two-digit-year US slash pattern MM/DD/YY,
matched at the head of the given character list; the spec leaves the
century mapping open, so the conventional 2000 + YY is used. -/
def usSlash2Parse : List Char → Option Date
  | m1 :: m2 :: '/' :: d1 :: d2 :: '/' :: y1 :: y2 :: _ =>
      if m1.isDigit && m2.isDigit && d1.isDigit && d2.isDigit
          && y1.isDigit && y2.isDigit then
        some ⟨2000 + twoDigits y1 y2, twoDigits m1 m2, twoDigits d1 d2⟩
      else none
  | _ => none

/-- Left-to-right scan: the first suffix of the text at which the given
pattern matches determines the result, mirroring regex search. -/
def scanFirst (p : List Char → Option Date) : List Char → Option Date
  | [] => none
  | c :: t =>
      match p (c :: t) with
      | some d => some d
      | none => scanFirst p t

/-- Modelled from the spec: the date extraction of FieldExtractor (4.1),
missing from the snapshot.  Patterns are tried in fixed priority order
ISO, US slash, US dash, two-digit-year US slash; the first pattern with
a match anywhere wins, at its first occurrence; otherwise the calendar
date of the upload timestamp is the defined fallback. -/
def extract_date (txt : List Char) (upload : Date) : Date :=
  match scanFirst isoParse txt with
  | some d => d
  | none =>
      match scanFirst usSlashParse txt with
      | some d => d
      | none =>
          match scanFirst usDashParse txt with
          | some d => d
          | none =>
              match scanFirst usSlash2Parse txt with
              | some d => d
              | none => upload

/-- Numeric value of a list of ASCII digits. -/
def digitsVal (ds : List Char) : Nat :=
  ds.foldl (fun a c => a * 10 + (c.toNat - 48)) 0

/-- State machine of the monetary-token scan: the second argument holds
the value of the digit run currently being read, if any. -/
def tokensGo : List Char → Option Nat → List Nat
  | [], none => []
  | [], some acc => [acc * 100]
  | c :: t, none =>
      if c.isDigit then tokensGo t (some (c.toNat - 48)) else tokensGo t none
  | c :: t, some acc =>
      if c.isDigit then tokensGo t (some (acc * 10 + (c.toNat - 48)))
      else if c = '.' then
        match t with
        | f1 :: f2 :: r =>
            if f1.isDigit && f2.isDigit then
              (acc * 100 + twoDigits f1 f2) :: tokensGo r none
            else acc * 100 :: tokensGo (f1 :: f2 :: r) none
        | u => acc * 100 :: tokensGo u none
      else acc * 100 :: tokensGo t none

/-- Modelled from the spec: the monetary-token scan of FieldExtractor
(4.1), missing from the snapshot.  A token is a run of digits optionally
followed by a decimal point and two digits; values are in cents. -/
def tokens (l : List Char) : List Nat := tokensGo l none

/-- Split a character list at newline characters, as the line-based
amount heuristic requires. -/
def splitLines : List Char → List (List Char)
  | [] => [[]]
  | c :: t =>
      if c = '\n' then [] :: splitLines t
      else
        match splitLines t with
        | [] => [[c]]
        | x :: xs => (c :: x) :: xs

/-- Whether the first list occurs at the head of the second. -/
def startsWithList : List Char → List Char → Bool
  | [], _ => true
  | _ :: _, [] => false
  | p :: ps, c :: cs => p == c && startsWithList ps cs

/-- Whether the first list occurs anywhere inside the second. -/
def containsList (pat : List Char) : List Char → Bool
  | [] => startsWithList pat []
  | c :: t => startsWithList pat (c :: t) || containsList pat t

/-- Modelled from the spec: the total-keyword test of the amount
heuristic, a case-insensitive occurrence of the word total in a line. -/
def lineHasTotal (line : List Char) : Bool :=
  containsList ("total".toList) (line.map Char.toLower)

/-- Modelled from the spec: the amount extraction of FieldExtractor
(4.1), missing from the snapshot.  The first line holding a total-like
keyword together with a monetary token supplies the amount (its first
token); otherwise the numerically largest token in the whole text is
selected; no token at all leaves the amount absent. -/
def extract_amount (txt : List Char) : Option Nat :=
  match (splitLines txt).find? (fun l => lineHasTotal l && !(tokens l).isEmpty) with
  | some l => (tokens l).head?
  | none =>
      match tokens txt with
      | [] => none
      | t :: ts => some (ts.foldl max t)

/-- Whether a line contains any date pattern match. -/
def lineHasDate (l : List Char) : Bool :=
  (scanFirst isoParse l).isSome || (scanFirst usSlashParse l).isSome
    || (scanFirst usDashParse l).isSome || (scanFirst usSlash2Parse l).isSome

/-- Trim leading and trailing non-alphanumeric characters from a line. -/
def trimPunct (l : List Char) : List Char :=
  ((l.dropWhile (fun c => !c.isAlphanum)).reverse.dropWhile
    (fun c => !c.isAlphanum)).reverse

/-- Modelled from the spec: the merchant heuristic of FieldExtractor
(4.1), missing from the snapshot.  Among the lines before the first line
holding a date or amount match, the first line that is non-empty after
trimming punctuation and is not numeric-only (it has a letter) supplies
the merchant; otherwise the default is unknown. -/
def merchantOf (txt : List Char) : String :=
  let top := (splitLines txt).takeWhile (fun l => !(lineHasDate l || !(tokens l).isEmpty))
  match top.find? (fun l => !(trimPunct l).isEmpty && l.any Char.isAlpha) with
  | some l => String.mk (trimPunct l)
  | none => "unknown"

/-- Modelled from the spec: the keyword-to-category table of
FieldExtractor (4.1), missing from the snapshot; the spec gives the table
by example (grocery keywords, fuel keywords), in declared priority
order. -/
def categoryRules : List (List String × String) :=
  [ (["grocery", "groceries", "supermarket", "mart", "market"], "Groceries"),
    (["fuel", "gas", "uber", "taxi", "transport"], "Transport") ]

/-- Modelled from the spec: the category lookup of FieldExtractor (4.1),
missing from the snapshot.  Keywords are checked case-insensitively
against merchant and full text; the first matching rule wins; the
default is uncategorized. -/
def categoryOf (merchant : String) (txt : List Char) : String :=
  let hay := (merchant.toList ++ txt).map Char.toLower
  match categoryRules.find? (fun r => r.1.any (fun k => containsList k.toList hay)) with
  | some r => r.2
  | none => "uncategorized"

/-- Modelled from the spec: the currency extraction of FieldExtractor
(4.1), missing from the snapshot.  The spec reads the symbol or code
next to the chosen amount token with a configured fallback; modelled as
the first recognised currency symbol in the text, with fallback USD. -/
def currencyOf (txt : List Char) : String :=
  if txt.contains '€' then "EUR"
  else if txt.contains '£' then "GBP"
  else "USD"

namespace FieldExtractor

/-- Modelled from the spec: FieldExtractor.extract (4.1), missing from
the snapshot.  It never fails: each field degrades independently, a
missing amount is stored as none with needs_review set, and the journal,
not the extractor, assigns ids (held at zero here). -/
def extract (txt : List Char) (upload : Date) : Transaction :=
  let amt := extract_amount txt
  let m := merchantOf txt
  { id := 0
    date := extract_date txt upload
    merchant := m
    category := categoryOf m txt
    amount := amt
    currency := currencyOf txt
    raw_text := txt
    needs_review := amt.isNone }

end FieldExtractor

/-! ## Backend store and workflow (not in the snapshot; modelled from the spec) -/

/-- Modelled from the spec: the shared backend state, a TransactionJournal
(4.5) and the VectorIndexAdapter contents (4.3), both missing from the
snapshot. -/
structure BackendState where
  journal : List Transaction
  index : List (List Char)
deriving DecidableEq, Repr

/-- Modelled from the spec: TransactionJournal.list (4.5), all records in
append order. -/
def listTransactions (b : BackendState) : List Transaction := b.journal

/-- Modelled from the spec: CorpusResetCoordinator.reset (4.6), missing
from the snapshot: the journal and the index both become empty, the
first-boot state. -/
def resetCorpus (_b : BackendState) : BackendState := ⟨[], []⟩

/-- Outcome of the external free-text reasoning call of the Answer
stage. -/
inductive AnswerOutcome where
  | success (text : String) (tips : List String)
  | failure (msg : String)
deriving DecidableEq, Repr

/-- Outcome of the external constrained-schema reasoning call of the
Analyze stage: either a schema-conforming analysis or a failure or
non-conforming result. -/
inductive AnalysisOutcome where
  | valid (perCategory : List (String × Nat))
  | failedOrNonconforming
deriving DecidableEq, Repr

/-- The response of the Done state of the workflow. -/
structure AskResponse where
  answer : String
  retrieved_context : List Char
  analysis : List (String × Nat)
  degraded : Bool
  insights : List String
deriving DecidableEq, Repr

/-- Add an amount to a category total in an association list. -/
def addTo (m : List (String × Nat)) (c : String) (a : Nat) : List (String × Nat) :=
  match m with
  | [] => [(c, a)]
  | (c1, v) :: r => if c1 = c then (c1, v + a) :: r else (c1, v) :: addTo r c a

/-- Modelled from the spec: the locally computed fallback summary of the
Analyze stage (4.4), a simple aggregation of per-category totals over the
retrieved transactions. -/
def localSummary (txs : List Transaction) : List (String × Nat) :=
  txs.foldl
    (fun m t =>
      match t.amount with
      | some a => addTo m t.category a
      | none => m)
    []

/-- Modelled from the spec: RetrievalAnalysisWorkflow (4.4), missing from
the snapshot.  Retrieve passes the possibly empty chunk list forward as
concatenated context without error; Analyze uses the external result when
valid and otherwise falls back to the local summary with the degraded
flag set, never aborting; Answer is the only stage whose failure makes
the request fail. -/
def runWorkflow (retrievedChunks : List (List Char)) (txs : List Transaction)
    (ao : AnalysisOutcome) (ans : AnswerOutcome) : Except String AskResponse :=
  let ctx := retrievedChunks.flatten
  let analysis :=
    match ao with
    | .valid a => (a, false)
    | .failedOrNonconforming => (localSummary txs, true)
  match ans with
  | .success t tips => .ok ⟨t, ctx, analysis.1, analysis.2, tips⟩
  | .failure m => .error m

/-- The receipt text of the end-to-end example in the spec (section 8),
used as a concrete sample input. -/
def specReceipt : List Char :=
  ("SuperMart\n2024-03-01\nMilk 3.50\nBread 2.00\nTOTAL 5.50").toList

/-- A concrete state whose question is whitespace only, with stale
displayed output, used as a sample input. -/
def blankQuestionState : AppState :=
  { askReadyState with question := "   ", answer := "stale answer",
                       retrieved := "stale context" }

/-! ## Helper lemmas -/

/-- The metadata pass preserves the number of chunks. -/
lemma buildChunks_length (overlap : Nat) (ps : List (List Char)) :
    ∀ i, (buildChunks overlap i ps).length = ps.length := by
  induction ps with
  | nil => intro i; simp [buildChunks]
  | cons p ps ih => intro i; simp [buildChunks, ih (i + 1)]

/-- The left-to-right scan returns the match at the first matching
position, for a pattern that cannot match the empty suffix. -/
lemma scanFirst_first_match (p : List Char → Option Date) (hnil : p [] = none) :
    ∀ (l : List Char) (i : Nat) (d : Date), (∀ j, j < i → p (l.drop j) = none) →
      p (l.drop i) = some d → scanFirst p l = some d := by
  intro l
  induction l with
  | nil =>
      intro i d _ hi
      rw [List.drop_nil, hnil] at hi
      exact absurd hi (by simp)
  | cons c t ih =>
      intro i d hbefore hi
      cases i with
      | zero =>
          rw [List.drop_zero] at hi
          simp [scanFirst, hi]
      | succ n =>
          have h0 : p (c :: t) = none := by
            have := hbefore 0 (Nat.succ_pos n)
            rwa [List.drop_zero] at this
          have hrest : scanFirst p t = some d := by
            refine ih n d (fun j hj => ?_) ?_
            · have := hbefore (j + 1) (Nat.succ_lt_succ hj)
              rwa [List.drop_succ_cons] at this
            · rwa [List.drop_succ_cons] at hi
          simp [scanFirst, h0, hrest]

/-- A left fold by max lands on a member of the folded list. -/
lemma foldl_max_mem (t : Nat) (ts : List Nat) : ts.foldl max t ∈ t :: ts := by
  induction ts generalizing t with
  | nil => simp
  | cons a ts ih =>
      have h := ih (max t a)
      simp only [List.foldl_cons]
      rcases List.mem_cons.mp h with h1 | h1
      · rw [h1]
        rcases max_choice t a with h2 | h2 <;> rw [h2] <;> simp
      · exact List.mem_cons_of_mem _ (List.mem_cons_of_mem _ h1)

/-- A left fold by max bounds every member of the folded list. -/
lemma foldl_max_le (t : Nat) (ts : List Nat) : ∀ v ∈ t :: ts, v ≤ ts.foldl max t := by
  induction ts generalizing t with
  | nil =>
      intro v hv
      simp only [List.mem_singleton] at hv
      simp [hv]
  | cons a ts ih =>
      intro v hv
      simp only [List.foldl_cons]
      rcases List.mem_cons.mp hv with rfl | hv1
      · exact le_trans (Nat.le_max_left v a) (ih (max v a) _ (List.mem_cons_self _ _))
      · rcases List.mem_cons.mp hv1 with rfl | hv2
        · exact le_trans (Nat.le_max_right t v) (ih (max t v) _ (List.mem_cons_self _ _))
        · exact ih (max t a) v (List.mem_cons_of_mem _ hv2)

/-! ## Claim theorems -/

/-- C1: the ask operation fails only if the Answer stage fails.  The
workflow succeeds for every Answer-stage success, whatever retrieval and
analysis produced, and an error forces an Answer-stage failure; on the
frontend, a question whose trimmed form is empty is rejected without a
request with the fixed message, and a question answered by an ok
response yields no user-visible error. -/
theorem C1_ask_fails_only_if_answer_fails :
    (∀ chunks txs ao t tips,
      ∃ r, runWorkflow chunks txs ao (.success t tips) = .ok r)
    ∧ (∀ chunks txs ao ans e,
        runWorkflow chunks txs ao ans = .error e → ans = .failure e)
    ∧ (∀ s fr, jsTrim s.question = "" →
        handleAsk s fr
          = ({ s with error := "Please enter a question first.",
                      answer := "", retrieved := "" }, false))
    ∧ (∀ s d, jsTrim s.question ≠ "" →
        (handleAsk s (.ok d)).1.error = "") := by
  refine ⟨?_, ?_, ?_, ?_⟩
  · intro chunks txs ao t tips
    exact ⟨_, rfl⟩
  · intro chunks txs ao ans e h
    cases ans with
    | success t tips => simp [runWorkflow] at h
    | failure m =>
        simp only [runWorkflow, Except.error.injEq] at h
        rw [h]
  · intro s fr h
    simp [handleAsk, h]
  · intro s d h
    simp [handleAsk, h]

/-- Closed instance of C1: a concrete question with a successful
response produces no error. -/
theorem C1_witness :
    jsTrim askReadyState.question ≠ ""
    ∧ (handleAsk askReadyState (.ok ⟨"You spent 5.50 USD.", none⟩)).1.error = "" :=
  ⟨by decide,
   C1_ask_fails_only_if_answer_fails.2.2.2 askReadyState
     ⟨"You spent 5.50 USD.", none⟩ (by decide)⟩

/-- C2: after a successful reset the system is in the first-boot state:
the journal and the index are empty, listing returns the empty sequence,
and a successful handleReset clears answer, retrieved context, file and
question, reloads the now empty transaction list, sets uploadStatus to a
fixed fresh-start message carrying no pre-reset data, and leaves no
error, so nothing from before the reset remains visible. -/
theorem C2_reset_first_boot (s : AppState) (b : BackendState) :
    listTransactions (resetCorpus b) = []
    ∧ (resetCorpus b).index = []
    ∧ (handleReset s true .success
        (.success (listTransactions (resetCorpus b)))).1.answer = ""
    ∧ (handleReset s true .success
        (.success (listTransactions (resetCorpus b)))).1.retrieved = ""
    ∧ (handleReset s true .success
        (.success (listTransactions (resetCorpus b)))).1.file = none
    ∧ (handleReset s true .success
        (.success (listTransactions (resetCorpus b)))).1.question = ""
    ∧ (handleReset s true .success
        (.success (listTransactions (resetCorpus b)))).1.error = ""
    ∧ (handleReset s true .success
        (.success (listTransactions (resetCorpus b)))).1.transactions = []
    ∧ (handleReset s true .success
        (.success (listTransactions (resetCorpus b)))).1.uploadStatus = resetDoneMsg :=
  ⟨rfl, rfl, rfl, rfl, rfl, rfl, rfl, rfl, rfl⟩

/-- C3: an empty retrieval result is not an error: on an ok response
whose retrieved_context is missing or empty, the frontend keeps the
retrieved context empty, shows no error, renders no Retrieved context
card, and still stores and (when non-empty) displays the answer. -/
theorem C3_empty_retrieval_not_error (s : AppState) (a : String)
    (rc : Option String) (hq : jsTrim s.question ≠ "")
    (hrc : rc = none ∨ rc = some "") :
    (handleAsk s (.ok ⟨a, rc⟩)).1.retrieved = ""
    ∧ (handleAsk s (.ok ⟨a, rc⟩)).1.error = ""
    ∧ showRetrievedCard (handleAsk s (.ok ⟨a, rc⟩)).1 = false
    ∧ (handleAsk s (.ok ⟨a, rc⟩)).1.answer = a
    ∧ (a ≠ "" → showAnswerCard (handleAsk s (.ok ⟨a, rc⟩)).1 = true) := by
  rcases hrc with h | h <;> subst h <;>
    simp [handleAsk, hq, showRetrievedCard, showAnswerCard]

/-- Closed instance of C3: a concrete ok response with absent
retrieved_context yields empty context, no error, no context card, and
the answer displayed. -/
theorem C3_witness :
    jsTrim askReadyState.question ≠ ""
    ∧ ((handleAsk askReadyState (.ok ⟨"No data yet.", none⟩)).1.retrieved = ""
        ∧ (handleAsk askReadyState (.ok ⟨"No data yet.", none⟩)).1.error = ""
        ∧ showRetrievedCard (handleAsk askReadyState (.ok ⟨"No data yet.", none⟩)).1 = false
        ∧ (handleAsk askReadyState (.ok ⟨"No data yet.", none⟩)).1.answer = "No data yet."
        ∧ ("No data yet." ≠ "" →
            showAnswerCard (handleAsk askReadyState (.ok ⟨"No data yet.", none⟩)).1 = true)) :=
  ⟨by decide,
   C3_empty_retrieval_not_error askReadyState "No data yet." none (by decide) (Or.inl rfl)⟩

/-- C4 counterexample: the claim says the error shown for a non-ok ask
response states which stage failed and whether partial results are
available.  Two non-ok responses with the same status whose bodies name
different failed stages and different partial results produce the very
same displayed error, the bare status line, with answer and retrieved
context left empty; the displayed error therefore states neither. -/
theorem C4_counterexample :
    (handleAsk askReadyState
        (.notOk 500 "stage Answer failed, partial retrieved context available")).1.error
      = "Backend error: 500"
    ∧ (handleAsk askReadyState
        (.notOk 500 "stage Retrieve failed, no partial results")).1
      = (handleAsk askReadyState
        (.notOk 500 "stage Answer failed, partial retrieved context available")).1
    ∧ (handleAsk askReadyState
        (.notOk 500 "stage Answer failed, partial retrieved context available")).1.answer = ""
    ∧ (handleAsk askReadyState
        (.notOk 500 "stage Answer failed, partial retrieved context available")).1.retrieved
      = "" :=
  ⟨rfl, rfl, rfl, rfl⟩

/-- C4 as amended: for every non-ok response to the ask request the
frontend shows exactly the bare status message Backend error: status,
discards the response body (the result is independent of it), and leaves
answer and retrieved context empty. -/
theorem C4_error_is_bare_status (s : AppState) (status : Nat)
    (body1 body2 : String) (hq : jsTrim s.question ≠ "") :
    handleAsk s (.notOk status body1) = handleAsk s (.notOk status body2)
    ∧ (handleAsk s (.notOk status body1)).1.error
      = "Backend error: " ++ toString status
    ∧ (handleAsk s (.notOk status body1)).1.answer = ""
    ∧ (handleAsk s (.notOk status body1)).1.retrieved = "" := by
  simp [handleAsk, hq]

/-- Closed instance of the amended C4 at a concrete state, status and
pair of bodies. -/
theorem C4_witness :
    jsTrim askReadyState.question ≠ ""
    ∧ (handleAsk askReadyState (.notOk 503 "analyze broke")
        = handleAsk askReadyState (.notOk 503 "retrieve broke")
      ∧ (handleAsk askReadyState (.notOk 503 "analyze broke")).1.error
        = "Backend error: " ++ toString 503
      ∧ (handleAsk askReadyState (.notOk 503 "analyze broke")).1.answer = ""
      ∧ (handleAsk askReadyState (.notOk 503 "analyze broke")).1.retrieved = "") :=
  ⟨by decide,
   C4_error_is_bare_status askReadyState 503 "analyze broke" "retrieve broke" (by decide)⟩

/-- C9: handleAsk resets the displayed error, answer and retrieved
context before doing anything else: its result never depends on the
previously displayed answer, retrieved context or error, and after any
failing ask (empty question, thrown fetch, non-ok response) both answer
and retrieved context are empty. -/
theorem C9_ask_clears_previous_output :
    (∀ s fr, jsTrim s.question = "" →
      (handleAsk s fr).1.answer = ""
        ∧ (handleAsk s fr).1.retrieved = ""
        ∧ (handleAsk s fr).1.error = "Please enter a question first."
        ∧ (handleAsk s fr).2 = false)
    ∧ (∀ s msg, (handleAsk s (.thrown msg)).1.answer = ""
        ∧ (handleAsk s (.thrown msg)).1.retrieved = "")
    ∧ (∀ s status body, (handleAsk s (.notOk status body)).1.answer = ""
        ∧ (handleAsk s (.notOk status body)).1.retrieved = "")
    ∧ (∀ s fr a r e,
        handleAsk { s with answer := a, retrieved := r, error := e } fr
          = handleAsk s fr) := by
  refine ⟨?_, ?_, ?_, ?_⟩
  · intro s fr h
    simp [handleAsk, h]
  · intro s msg
    by_cases h : jsTrim s.question = "" <;> simp [handleAsk, h]
  · intro s status body
    by_cases h : jsTrim s.question = "" <;> simp [handleAsk, h]
  · intro s fr a r e
    cases s
    rfl

/-- Closed instance of C9: a whitespace-only question leaves no stale
answer or context displayed and issues no request. -/
theorem C9_witness :
    jsTrim blankQuestionState.question = ""
    ∧ ((handleAsk blankQuestionState (.thrown "boom")).1.answer = ""
        ∧ (handleAsk blankQuestionState (.thrown "boom")).1.retrieved = ""
        ∧ (handleAsk blankQuestionState (.thrown "boom")).1.error
          = "Please enter a question first."
        ∧ (handleAsk blankQuestionState (.thrown "boom")).2 = false) :=
  ⟨by decide,
   C9_ask_clears_previous_output.1 blankQuestionState (.thrown "boom") (by decide)⟩

/-- C10: the destructive reset request is never sent without explicit
confirmation: when window.confirm returns false, handleReset issues no
request (second component false) and leaves the whole state unchanged
except for the error message, which it had already cleared before asking
for confirmation; question, answer, retrieved context, file, upload
status and transactions are untouched. -/
theorem C10_reset_requires_confirmation (s : AppState) (fr : ResetFetch)
    (lr : LoadResult) :
    handleReset s false fr lr = ({ s with error := "" }, false) := rfl

/-- C5: chunking is a lossless round trip: for every text and every
configuration with overlap below chunk size, TextChunker.chunk succeeds,
its chunks carry consecutive sequence indices, and concatenating them in
that order after stripping overlap_with_previous characters from the
front of each non-first chunk (the first carries zero) restores the
input exactly. -/
theorem C5_chunk_lossless (txt : List Char) (csize overlap : Nat)
    (h : overlap < csize) :
    ∃ cs, TextChunker.chunk txt csize overlap = .ok cs
      ∧ reconstruct cs = txt
      ∧ cs.map Chunk.sequence_index = List.range cs.length := by
  obtain ⟨stride, hst, hcs⟩ : ∃ st, 0 < st ∧ csize = st + overlap :=
    ⟨csize - overlap, by omega, by omega⟩
  subst hcs
  have hsub : stride + overlap - overlap = stride := by omega
  refine ⟨buildChunks overlap 0 (chunkWorker (stride + overlap) stride txt), ?_, ?_, ?_⟩
  · simp [TextChunker.chunk, h, hsub]
  · by_cases hn : txt = []
    · subst hn
      simp [chunkWorker_nil, buildChunks, reconstruct]
    · rw [chunkWorker_cons _ _ _ hn (by omega)]
      simp only [reconstruct, buildChunks, List.map_cons, List.flatten_cons,
        if_pos rfl, List.drop_zero]
      rw [buildChunks_map_drop overlap _ 1 one_ne_zero]
      rw [join_map_drop_chunkWorker stride overlap hst (txt.drop stride).length
        (txt.drop stride) (le_refl _)]
      rw [List.drop_drop]
      exact List.take_append_drop _ txt
  · rw [buildChunks_map_index, buildChunks_length, List.range_eq_range']

/-- Closed instance of C5 at a concrete text and configuration with
overlap one and chunk size three. -/
theorem C5_witness :
    ∃ cs, TextChunker.chunk ("abcdefgh".toList) 3 1 = .ok cs
      ∧ reconstruct cs = "abcdefgh".toList
      ∧ cs.map Chunk.sequence_index = List.range cs.length :=
  C5_chunk_lossless ("abcdefgh".toList) 3 1 (by decide)

/-- C6: date extraction tries ISO, US slash, US dash, then two-digit-year
US slash, in that fixed order; the first pattern with a match anywhere
determines the date, at its first occurrence in reading order, and when
no pattern matches the result is the calendar date of the upload
timestamp, without error. -/
theorem C6_date_priority_and_fallback (txt : List Char) (u : Date) :
    (scanFirst isoParse txt = none → scanFirst usSlashParse txt = none →
      scanFirst usDashParse txt = none → scanFirst usSlash2Parse txt = none →
      extract_date txt u = u)
    ∧ (∀ d, scanFirst isoParse txt = some d → extract_date txt u = d)
    ∧ (∀ d, scanFirst isoParse txt = none → scanFirst usSlashParse txt = some d →
        extract_date txt u = d)
    ∧ (∀ d, scanFirst isoParse txt = none → scanFirst usSlashParse txt = none →
        scanFirst usDashParse txt = some d → extract_date txt u = d)
    ∧ (∀ d, scanFirst isoParse txt = none → scanFirst usSlashParse txt = none →
        scanFirst usDashParse txt = none → scanFirst usSlash2Parse txt = some d →
        extract_date txt u = d)
    ∧ (∀ p, p ∈ [isoParse, usSlashParse, usDashParse, usSlash2Parse] →
        ∀ i d, (∀ j, j < i → p (txt.drop j) = none) → p (txt.drop i) = some d →
          scanFirst p txt = some d) := by
  refine ⟨?_, ?_, ?_, ?_, ?_, ?_⟩
  · intro h1 h2 h3 h4
    simp [extract_date, h1, h2, h3, h4]
  · intro d h1
    simp [extract_date, h1]
  · intro d h1 h2
    simp [extract_date, h1, h2]
  · intro d h1 h2 h3
    simp [extract_date, h1, h2, h3]
  · intro d h1 h2 h3 h4
    simp [extract_date, h1, h2, h3, h4]
  · intro p hp i d hbefore hi
    have hnil : p [] = none := by
      simp only [List.mem_cons, List.not_mem_nil, or_false] at hp
      rcases hp with rfl | rfl | rfl | rfl <;> rfl
    exact scanFirst_first_match p hnil txt i d hbefore hi

/-- Closed instance of C6: a text holding both a US slash date (earlier
in reading order) and an ISO date resolves to the ISO date, the first
pattern in priority order that matches. -/
theorem C6_witness :
    scanFirst isoParse ("12/31/2023 then 2024-03-01".toList) = some ⟨2024, 3, 1⟩
    ∧ extract_date ("12/31/2023 then 2024-03-01".toList) ⟨2025, 6, 7⟩ = ⟨2024, 3, 1⟩ :=
  ⟨rfl,
   (C6_date_priority_and_fallback ("12/31/2023 then 2024-03-01".toList)
     ⟨2025, 6, 7⟩).2.1 ⟨2024, 3, 1⟩ rfl⟩

/-- C7: when some line holds a total-like keyword together with a
monetary token, the first such line supplies the extracted amount (its
first token), whatever larger tokens appear elsewhere; with no such
line, the extracted amount is the numerically largest token of the whole
text, a member of the token list bounding every token; with no token at
all the amount is absent. -/
theorem C7_amount_total_line_priority (txt : List Char) :
    (∀ l, (splitLines txt).find? (fun l => lineHasTotal l && !(tokens l).isEmpty)
        = some l →
      extract_amount txt = (tokens l).head?)
    ∧ ((splitLines txt).find? (fun l => lineHasTotal l && !(tokens l).isEmpty)
        = none →
      ∀ t ts, tokens txt = t :: ts →
        extract_amount txt = some (ts.foldl max t)
        ∧ ts.foldl max t ∈ tokens txt
        ∧ ∀ v ∈ tokens txt, v ≤ ts.foldl max t)
    ∧ ((splitLines txt).find? (fun l => lineHasTotal l && !(tokens l).isEmpty)
        = none →
      tokens txt = [] → extract_amount txt = none) := by
  refine ⟨?_, ?_, ?_⟩
  · intro l h
    simp [extract_amount, h]
  · intro hnone t ts htl
    refine ⟨by simp [extract_amount, hnone, htl], ?_, ?_⟩
    · rw [htl]
      exact foldl_max_mem t ts
    · intro v hv
      rw [htl] at hv
      exact foldl_max_le t ts v hv
  · intro h1 h2
    simp [extract_amount, h1, h2]

/-- Closed instance of C7 on the end-to-end receipt of the spec: the
TOTAL line supplies 5.50 even though the date line holds the larger
token 2024. -/
theorem C7_witness :
    (splitLines specReceipt).find? (fun l => lineHasTotal l && !(tokens l).isEmpty)
      = some ("TOTAL 5.50".toList)
    ∧ extract_amount specReceipt = some 550 :=
  ⟨rfl,
   ((C7_amount_total_line_priority specReceipt).1 ("TOTAL 5.50".toList) rfl).trans rfl⟩

/-- C8: FieldExtractor.extract is deterministic: two invocations with
identical raw text and identical upload timestamp produce identical
Transactions; the embedded extractor is a pure function of exactly these
two arguments, with no randomness and no external calls. -/
theorem C8_extract_deterministic (t1 t2 : List Char) (u1 u2 : Date)
    (ht : t1 = t2) (hu : u1 = u2) :
    FieldExtractor.extract t1 u1 = FieldExtractor.extract t2 u2 := by
  rw [ht, hu]

/-- Closed instance of C8 on the end-to-end receipt of the spec. -/
theorem C8_witness :
    specReceipt = specReceipt
    ∧ FieldExtractor.extract specReceipt ⟨2024, 3, 5⟩
      = FieldExtractor.extract specReceipt ⟨2024, 3, 5⟩ :=
  ⟨rfl, C8_extract_deterministic specReceipt specReceipt ⟨2024, 3, 5⟩ ⟨2024, 3, 5⟩ rfl rfl⟩

end ExpenseTracker
